import Mathlib

/-!
Shallow embedding of the intake-esgf catalog module
(src/intake_esgf/catalog.py) together with theorems about its
search, filtering, key-generation and file-resolution behaviour.

Catalog rows are embedded as a `Record` structure; the working set
(`self.df`, a pandas DataFrame) is a `List Record` (an absent working
set is `Option.none`).  Pandas operations are translated operation by
operation: `groupby` iterates the distinct group keys, with every
group subtable drawn from the dataframe as it was when the loop
started; `str.extract` with the pattern r(\d+)i(\d+)p(\d+)f(\d+) is a
regex search returning the four captured digit strings (pandas keeps
them as strings, so `sort_values` compares them lexicographically,
character by character); `drop` of a group's rows is a filter.
External collaborators (the search indices, and the
`response_to_local_filelist` / `response_to_https_download` helpers of
`intake_esgf.core`, which are not part of this file's source) enter the
model as outcome parameters: each call either returns a value or
raises, and the embedding records what the catalog code does with
each outcome.
-/

/-- One row of the catalog's working set: the facet columns present in
the CMIP search results used by `ESGFCatalog`, plus the identity
columns `id` and `version`, the originating `data_node` and the
backend re-query handle `globus_subject`. -/
structure Record where
  id : String
  version : String
  source_id : String
  member_id : String
  grid_label : String
  variable_id : String
  activity_id : String
  data_node : String
  globus_subject : String
  deriving DecidableEq

/-- Helper building a concrete catalog row for worked examples. -/
def mkRec (sid mid : String) : Record :=
  { id := sid ++ "." ++ mid
    version := "20190101"
    source_id := sid
    member_id := mid
    grid_label := "gn"
    variable_id := "gpp"
    activity_id := "CMIP"
    data_node := "esgf-node.llnl.gov"
    globus_subject := sid ++ "." ++ mid }

/-- Two rows that share `activity_id = "CMIP"` but differ in
`source_id`, used for the minimal-key examples. -/
def recCMIP1 : Record := mkRec "ACCESS-ESM1-5" "r1i1p1f1"

/-- Second row of the minimal-key example; see `recCMIP1`. -/
def recCMIP2 : Record := mkRec "BCC-CSM2-MR" "r1i1p1f1"

/-! ## Member identifiers: the regex extraction of `remove_ensembles`

`grp.member_id.str.extract(r"r(\d+)i(\d+)p(\d+)f(\d+)")` searches each
member identifier for the pattern and returns the four captured digit
strings, or NaN for every capture when the pattern does not occur.
The captures stay strings; `sort_values([0, 1, 2, 3])` therefore
orders them lexicographically by unicode code point, with the NaN rows
placed last. -/

/-- A member key: the four captured digit strings of one row, or
`Option.none` when the pattern did not match (pandas NaN row). -/
abbrev MKey : Type := Option (List Char × List Char × List Char × List Char)

/-- Maximal leading run of digit characters, together with the rest of
the input: the greedy matching of one `\d+` group. -/
def takeDigits : List Char → List Char × List Char
  | [] => ([], [])
  | c :: cs =>
    if c.isDigit then (c :: (takeDigits cs).1, (takeDigits cs).2) else ([], c :: cs)

/-- Consume one expected literal character of the pattern. -/
def expectChar (c : Char) : List Char → Option (List Char)
  | [] => Option.none
  | x :: xs => if x = c then some xs else Option.none

/-- Consume one `(\d+)` group: fails when no digit is present. -/
def grabDigits (l : List Char) : Option (List Char × List Char) :=
  if (takeDigits l).1 = [] then Option.none else some (takeDigits l)

/-- Match the pattern r(\d+)i(\d+)p(\d+)f(\d+) anchored at the start
of `l`, returning the four captures.  The literal letters are not
digits, so the greedy `\d+` groups never need to backtrack and the
match is deterministic. -/
def matchAtL (l : List Char) : MKey :=
  Option.bind (expectChar 'r' l) fun l1 =>
  Option.bind (grabDigits l1) fun p1 =>
  Option.bind (expectChar 'i' p1.2) fun l2 =>
  Option.bind (grabDigits l2) fun p2 =>
  Option.bind (expectChar 'p' p2.2) fun l3 =>
  Option.bind (grabDigits l3) fun p3 =>
  Option.bind (expectChar 'f' p3.2) fun l4 =>
  Option.bind (grabDigits l4) fun p4 =>
  some (p1.1, p2.1, p3.1, p4.1)

/-- Regex search: try the pattern at every start position, returning
the first match, as `re.search` (used by `pandas.str.extract`) does. -/
def searchL : List Char → MKey
  | [] => Option.none
  | c :: cs =>
    match matchAtL (c :: cs) with
    | some t => some t
    | Option.none => searchL cs

/-- The `str.extract` of one member identifier. -/
def extractMember (s : String) : MKey := searchL s.data

/-- Python string comparison: lexicographic by unicode code point,
a strict prefix ordering before any longer string. -/
def strLt : List Char → List Char → Bool
  | [], [] => false
  | [], _ :: _ => true
  | _ :: _, [] => false
  | a :: as, b :: bs => if a < b then true else if b < a then false else strLt as bs

/-- Row ordering of `sort_values([0, 1, 2, 3])` on the four captured
strings: column by column, each compared as a Python string. -/
def tupLt : (List Char × List Char × List Char × List Char) →
    (List Char × List Char × List Char × List Char) → Bool
  | (a, b, c, d), (a2, b2, c2, d2) =>
    if strLt a a2 then true
    else if strLt a2 a then false
    else if strLt b b2 then true
    else if strLt b2 b then false
    else if strLt c c2 then true
    else if strLt c2 c then false
    else strLt d d2

/-- Full row ordering including the NaN rows, which `sort_values`
places last. -/
def keyLt : MKey → MKey → Bool
  | some t, some t2 => tupLt t t2
  | some _, Option.none => true
  | Option.none, _ => false

/-- Running minimum underlying `sort_values(...).iloc[0]`. -/
def minKeyAux : MKey → List MKey → MKey
  | m, [] => m
  | m, k :: ks => minKeyAux (if keyLt k m then k else m) ks

/-- The key of the first row after sorting: the least key of the
group (ties carry equal key values, so the choice of row does not
matter). -/
def minKeyList : List MKey → MKey
  | [] => Option.none
  | k :: ks => minKeyAux k ks

/-- The `"r{}i{}p{}f{}".format(*...)` reconstruction of the selected
member identifier.  Formatting the NaN row prints Python's `nan` for
each component. -/
def formatMember : MKey → String
  | Option.none => "rnaninanpnanfnan"
  | some (a, b, c, d) => String.mk ('r' :: (a ++ 'i' :: (b ++ 'p' :: (c ++ 'f' :: d))))

/-! ## Group-wise filtering: `remove_incomplete` and `remove_ensembles` -/

/-- The `(source_id, member_id, grid_label)` group key of a row. -/
def gkey (r : Record) : String × String × String :=
  (r.source_id, r.member_id, r.grid_label)

/-- The subtable of one `(source_id, member_id, grid_label)` group, as
produced by `groupby` on `df`. -/
def groupSub (df : List Record) (k : String × String × String) : List Record :=
  df.filter (fun r => decide (gkey r = k))

/-- `ESGFCatalog.remove_incomplete`: iterate the groups of the working
set as it was when the loop started (pandas `groupby` materialises the
groups once); every group whose subtable the `complete` predicate
rejects has its rows dropped from the running working set. -/
def remove_incomplete (complete : List Record → Bool) (df : List Record) : List Record :=
  ((df.map gkey).dedup).foldl
    (fun cur k =>
      if complete (groupSub df k) then cur
      else cur.filter (fun r => !(decide (gkey r = k)))) df

/-- The subtable of one `source_id` partition. -/
def groupRows (df : List Record) (sid : String) : List Record :=
  df.filter (fun r => decide (r.source_id = sid))

/-- The member identifier `remove_ensembles` selects for one
`source_id`: extract every row's captures, take the first row after
sorting, and format it back into `r{}i{}p{}f{}`. -/
def msel (df : List Record) (sid : String) : String :=
  formatMember (minKeyList ((groupRows df sid).map (fun r => extractMember r.member_id)))

/-- `ESGFCatalog.remove_ensembles`: for every `source_id` partition of
the working set, drop the rows whose `member_id` differs from the
selected identifier. -/
def remove_ensembles (df : List Record) : List Record :=
  ((df.map Record.source_id).dedup).foldl
    (fun cur sid =>
      cur.filter
        (fun r => !(decide (r.source_id = sid) && !(decide (r.member_id = msel df sid))))) df

/-! ## `search`: the backend query loop -/

/-- Outcome of `index.search(**search)` for one configured backend:
either a result table, or an exception of one of the caught types
(`ValueError`, `SearchAPIError`). -/
inductive SearchOutcome
  | ok (t : List Record)
  | raiseCaught
  deriving DecidableEq

/-- The deduplication key of `combine_results`: every facet field
together with `version` (rows from different backends carry different
`id` and `data_node` for the same dataset). -/
def facetsVersion (r : Record) : String × String × String × String × String × String :=
  (r.source_id, r.member_id, r.grid_label, r.variable_id, r.activity_id, r.version)

/-- Keep the first row carrying each deduplication key. -/
def dedupFirst : List Record →
    List (String × String × String × String × String × String) → List Record
  | [], _ => []
  | r :: rest, seen =>
    if facetsVersion r ∈ seen then dedupFirst rest seen
    else r :: dedupFirst rest (facetsVersion r :: seen)

/-- Modelled from the spec: `combine_results` (in `intake_esgf.core`,
which is not among the source files) concatenates the per-backend
tables and collapses exact duplicates — rows agreeing on every facet
field and on `version` — keeping the copy from the
highest-priority (earliest-configured) backend. -/
def combine_results (dfs : List (List Record)) : List Record :=
  dedupFirst dfs.flatten []

/-- The body of the `search` loop.  The local variable `df` (second
argument, `Option.none` while still unbound) is assigned only when a
backend succeeds; a caught exception leaves it untouched, after which
`dfs.append(df)` either reads an unbound local (raising
`UnboundLocalError`, a `NameError`) or re-appends the previous
backend's table. -/
def searchDfs : List SearchOutcome → Option (List Record) →
    Except String (List (List Record))
  | [], _ => Except.ok []
  | o :: rest, dfVar =>
    match (match o with
           | SearchOutcome.ok t => some t
           | SearchOutcome.raiseCaught => dfVar) with
    | Option.none => Except.error "NameError"
    | some t => (searchDfs rest (some t)).map (fun l => t :: l)

/-- `ESGFCatalog.search`: run every configured index, collect the
per-backend tables, and combine them into the new working set. -/
def search (outcomes : List SearchOutcome) : Except String (List Record) :=
  (searchDfs outcomes Option.none).map combine_results

/-! ## Per-record file resolution inside `to_dataset_dict` -/

/-- Outcome of one resolution strategy call for one record: a file
list, a raised `FileNotFoundError`, or a raised exception of any other
type. -/
inductive StratOutcome
  | files (fs : List String)
  | errFNF
  | errOther
  deriving DecidableEq

/-- Result of running the resolution chain on one record: the file
list (or the propagated exception), plus how many times the https
download fallback was invoked. -/
structure ResolveOut where
  result : Except Unit (List String)
  downloadCalls : Nat

/-- Invoke `response_to_https_download`: its return value becomes the
file list; an exception of any type propagates (the call site has no
handler). -/
def callDownload : StratOutcome → ResolveOut
  | StratOutcome.files gs => ⟨Except.ok gs, 1⟩
  | StratOutcome.errFNF => ⟨Except.error (), 1⟩
  | StratOutcome.errOther => ⟨Except.error (), 1⟩

/-- The resolution chain of `to_dataset_dict` for one record:
`file_list = []`; try the local lookup, catching only
`FileNotFoundError`; if the list is still empty, fall through to the
https download. -/
def resolveRecord : StratOutcome → StratOutcome → ResolveOut
  | StratOutcome.errOther, _ => ⟨Except.error (), 0⟩
  | StratOutcome.errFNF, d => callDownload d
  | StratOutcome.files [], d => callDownload d
  | StratOutcome.files (f :: fs), _ => ⟨Except.ok (f :: fs), 0⟩

/-- A value of the returned dataset dictionary: a dataset opened from
one file, a multi-file dataset, or the failure marker string. -/
inductive DSValue
  | single (path : String)
  | multi (paths : List String)
  | failure (msg : String)
  deriving DecidableEq

/-- Turn a resolved file list into the dictionary value:
`open_dataset` for one file, `open_mfdataset` for several, and the
failure marker for none. -/
def entryOf : List String → DSValue
  | [] => DSValue.failure "Could not obtain this file."
  | [f] => DSValue.single f
  | f :: g :: rest => DSValue.multi (f :: g :: rest)

/-- The dictionary value produced for one record, or the propagated
exception. -/
def recordEntry (l d : StratOutcome) : Except Unit DSValue :=
  (resolveRecord l d).result.map entryOf

/-! ## Key generation and materialization -/

/-- The columns of the working set, in dataframe order. -/
def allColumns : List String :=
  ["id", "source_id", "member_id", "grid_label", "variable_id",
   "activity_id", "version", "data_node", "globus_subject"]

/-- Column access on one row. -/
def getCol (r : Record) (c : String) : String :=
  if c = "id" then r.id
  else if c = "source_id" then r.source_id
  else if c = "member_id" then r.member_id
  else if c = "grid_label" then r.grid_label
  else if c = "variable_id" then r.variable_id
  else if c = "activity_id" then r.activity_id
  else if c = "version" then r.version
  else if c = "data_node" then r.data_node
  else if c = "globus_subject" then r.globus_subject
  else ""

/-- The facets `to_dataset_dict` always ignores when building keys. -/
def alwaysIgnored : List String := ["version", "data_node", "globus_subject"]

/-- The `ignore_facets` argument: absent, a single facet name, or a
caller-owned list object. -/
inductive IgnoreArg
  | noArg
  | str (s : String)
  | list (l : List String)

/-- Normalisation of `ignore_facets` followed by
`ignore_facets += ["version", "data_node", "globus_subject"]`.  When
the caller passed a list object, `+=` extends that object in place, so
this is also the content of the caller's list after the call. -/
def normalizeIgnore : IgnoreArg → List String
  | IgnoreArg.noArg => [] ++ alwaysIgnored
  | IgnoreArg.str s => [s] ++ alwaysIgnored
  | IgnoreArg.list l => l ++ alwaysIgnored

/-- Content of a caller-passed list before the `+=` line runs (the
state it keeps when the call raises earlier). -/
def origIgnore : IgnoreArg → List String
  | IgnoreArg.noArg => []
  | IgnoreArg.str _ => []
  | IgnoreArg.list l => l

/-- The key-format computation of `to_dataset_dict`: iterate the
dataframe's columns minus the ignored ones; in minimal-key mode keep
only the columns on which some row differs from row 0. -/
def keyFormat (rows : List Record) (ignore : List String) (minimal : Bool) : List String :=
  match rows with
  | [] => []
  | r0 :: _ =>
    allColumns.filter (fun c =>
      !(decide (c ∈ ignore)) &&
        (!minimal || !(rows.all (fun r => decide (getCol r c = getCol r0 c)))))

/-- The dictionary key of one row: its values for the selected
columns, joined with the separator. -/
def rowKey (fmt : List String) (sep : String) (r : Record) : String :=
  String.intercalate sep (fmt.map (getCol r))

/-- The `index_id` instance attribute that the per-record loop reads
for its response acquisition
(`SearchClient().post_search(self.index_id, ...)`).  No method of
`ESGFCatalog` ever assigns it — `__init__` sets only `indices`, `df`,
`esgf_data_root` and `local_cache` — so the attribute is absent and
every read of it raises `AttributeError`. -/
def index_id : Option String := Option.none

/-- The per-record loop of `to_dataset_dict`: each iteration first
re-queries the record's file listing, reading `self.index_id` — an
attribute that is never assigned, so this read raises
`AttributeError` on the first record; were the attribute set, the
iteration would run the resolution chain (a propagated strategy
exception aborting the whole call) and contribute the record's
key/value pair. -/
def buildDict (lo dn : Record → StratOutcome) (fmt : List String) (sep : String) :
    List Record → Except String (List (String × DSValue))
  | [] => Except.ok []
  | r :: rest =>
    match index_id with
    | Option.none => Except.error "AttributeError"
    | some _ =>
      match (resolveRecord (lo r) (dn r)).result with
      | Except.error _ => Except.error "unhandled exception during file resolution"
      | Except.ok fs =>
        match buildDict lo dn fmt sep rest with
        | Except.error e => Except.error e
        | Except.ok tail => Except.ok ((rowKey fmt sep r, entryOf fs) :: tail)

/-- Result of a `to_dataset_dict` call: the returned dictionary (or
the raised error), plus the content of the `ignore_facets` list as the
caller sees it after the call. -/
structure DDOut where
  result : Except String (List (String × DSValue))
  ignoreAfter : List String

/-- `ESGFCatalog.to_dataset_dict`: fail fast on an absent or empty
working set, otherwise extend the ignore list, build the key format
and materialise every record.  The strategy outcomes of the two
resolution collaborators are passed as parameters `lo` and `dn`. -/
def to_dataset_dict (df : Option (List Record)) (minimal : Bool) (ig : IgnoreArg)
    (sep : String) (lo dn : Record → StratOutcome) : DDOut :=
  match df with
  | Option.none => ⟨Except.error "No entries to retrieve.", origIgnore ig⟩
  | some rows =>
    match rows with
    | [] => ⟨Except.error "No entries to retrieve.", origIgnore ig⟩
    | r0 :: rest =>
      ⟨buildDict lo dn (keyFormat (r0 :: rest) (normalizeIgnore ig) minimal) sep (r0 :: rest),
       normalizeIgnore ig⟩

/-- `ESGFCatalog.to_datatree`: delegates to `to_dataset_dict` with the
separator "/". -/
def to_datatree (df : Option (List Record)) (minimal : Bool) (ig : IgnoreArg)
    (lo dn : Record → StratOutcome) : DDOut :=
  to_dataset_dict df minimal ig "/" lo dn

/-! ## Lemmas about the member-identifier extraction -/

/-- Every character kept by `takeDigits` is a digit. -/
theorem takeDigits_fst (l : List Char) : ∀ c ∈ (takeDigits l).1, c.isDigit = true := by
  induction l with
  | nil => simp [takeDigits]
  | cons c cs ih =>
    by_cases hc : c.isDigit = true
    · simp only [takeDigits, if_pos hc]
      intro d hd
      rcases List.mem_cons.mp hd with h1 | h2
      · exact h1 ▸ hc
      · exact ih d h2
    · simp [takeDigits, hc]

/-- Greedy digit matching stops exactly at the first non-digit. -/
theorem takeDigits_append (a : List Char) (x : Char) (r : List Char)
    (ha : ∀ c ∈ a, c.isDigit = true) (hx : x.isDigit = false) :
    takeDigits (a ++ x :: r) = (a, x :: r) := by
  induction a with
  | nil => simp [takeDigits, hx]
  | cons c cs ih =>
    have hc : c.isDigit = true := ha c (List.mem_cons_self c cs)
    have ih2 := ih (fun d hd => ha d (List.mem_cons_of_mem c hd))
    simp [takeDigits, hc, ih2]

/-- An all-digit input is consumed whole. -/
theorem takeDigits_all (l : List Char) (h : ∀ c ∈ l, c.isDigit = true) :
    takeDigits l = (l, []) := by
  induction l with
  | nil => rfl
  | cons c cs ih =>
    have hc : c.isDigit = true := h c (List.mem_cons_self c cs)
    have ih2 := ih (fun d hd => h d (List.mem_cons_of_mem c hd))
    simp [takeDigits, hc, ih2]

/-- A successful `(\d+)` capture is a non-empty digit string. -/
theorem grabDigits_some {l : List Char} {p : List Char × List Char}
    (h : grabDigits l = some p) : p.1 ≠ [] ∧ ∀ c ∈ p.1, c.isDigit = true := by
  unfold grabDigits at h
  split at h
  · exact absurd h (by simp)
  · next h0 =>
    injection h with h2
    subst h2
    exact ⟨h0, takeDigits_fst l⟩

/-- Computation rule for a `(\d+)` group followed by a non-digit. -/
theorem grabDigits_of (a : List Char) (x : Char) (r : List Char)
    (hne : a ≠ []) (hd : ∀ c ∈ a, c.isDigit = true) (hx : x.isDigit = false) :
    grabDigits (a ++ x :: r) = some (a, x :: r) := by
  unfold grabDigits
  rw [takeDigits_append a x r hd hx]
  simp [hne]

/-- Computation rule for a trailing `(\d+)` group. -/
theorem grabDigits_all (a : List Char) (hne : a ≠ [])
    (hd : ∀ c ∈ a, c.isDigit = true) : grabDigits a = some (a, []) := by
  unfold grabDigits
  rw [takeDigits_all a hd]
  simp [hne]

/-- Computation rule for the expected literal characters. -/
theorem expectChar_cons (c : Char) (xs : List Char) : expectChar c (c :: xs) = some xs := by
  simp [expectChar]

/-- A member key is well formed when each component is a non-empty
digit string (the NaN key is trivially well formed). -/
def IsWf : MKey → Prop
  | Option.none => True
  | some (a, b, c, d) =>
    (a ≠ [] ∧ ∀ x ∈ a, x.isDigit = true) ∧ (b ≠ [] ∧ ∀ x ∈ b, x.isDigit = true) ∧
    (c ≠ [] ∧ ∀ x ∈ c, x.isDigit = true) ∧ (d ≠ [] ∧ ∀ x ∈ d, x.isDigit = true)

/-- A formatted well-formed key matches at its own first character. -/
theorem matchAtL_format (a b c d : List Char)
    (ha : a ≠ [] ∧ ∀ x ∈ a, x.isDigit = true)
    (hb : b ≠ [] ∧ ∀ x ∈ b, x.isDigit = true)
    (hc : c ≠ [] ∧ ∀ x ∈ c, x.isDigit = true)
    (hd : d ≠ [] ∧ ∀ x ∈ d, x.isDigit = true) :
    matchAtL ('r' :: (a ++ 'i' :: (b ++ 'p' :: (c ++ 'f' :: d)))) = some (a, b, c, d) := by
  have hi : Char.isDigit 'i' = false := by decide
  have hp : Char.isDigit 'p' = false := by decide
  have hf : Char.isDigit 'f' = false := by decide
  have g1 : grabDigits (a ++ 'i' :: (b ++ 'p' :: (c ++ 'f' :: d)))
      = some (a, 'i' :: (b ++ 'p' :: (c ++ 'f' :: d))) :=
    grabDigits_of a 'i' _ ha.1 ha.2 hi
  have g2 : grabDigits (b ++ 'p' :: (c ++ 'f' :: d))
      = some (b, 'p' :: (c ++ 'f' :: d)) :=
    grabDigits_of b 'p' _ hb.1 hb.2 hp
  have g3 : grabDigits (c ++ 'f' :: d) = some (c, 'f' :: d) :=
    grabDigits_of c 'f' _ hc.1 hc.2 hf
  have g4 : grabDigits d = some (d, []) := grabDigits_all d hd.1 hd.2
  simp [matchAtL, expectChar_cons, g1, g2, g3, g4]

/-- Any successful match produces a well-formed key. -/
theorem matchAtL_wf (l : List Char) (t : List Char × List Char × List Char × List Char)
    (h : matchAtL l = some t) : IsWf (some t) := by
  simp only [matchAtL, Option.bind_eq_some] at h
  obtain ⟨l1, h1, p1, g1, l2, h2, p2, g2, l3, h3, p3, g3, l4, h4, p4, g4, hfin⟩ := h
  have w1 := grabDigits_some g1
  have w2 := grabDigits_some g2
  have w3 := grabDigits_some g3
  have w4 := grabDigits_some g4
  injection hfin with ht
  subst ht
  exact ⟨w1, w2, w3, w4⟩

/-- The regex search only ever returns well-formed keys. -/
theorem searchL_wf (l : List Char) : IsWf (searchL l) := by
  induction l with
  | nil => exact trivial
  | cons c cs ih =>
    simp only [searchL]
    cases hm : matchAtL (c :: cs) with
    | none => exact ih
    | some t => exact matchAtL_wf _ _ hm

/-- Extraction of any member identifier yields a well-formed key. -/
theorem extractMember_wf (s : String) : IsWf (extractMember s) := searchL_wf s.data

/-- Formatting a well-formed key and re-extracting it is the
identity: the surviving `member_id` of a pass reproduces its own key. -/
theorem wf_roundtrip (k : MKey) (h : IsWf k) : extractMember (formatMember k) = k := by
  match k with
  | Option.none => decide
  | some (a, b, c, d) =>
    obtain ⟨ha, hb, hc, hd⟩ := h
    have hm := matchAtL_format a b c d ha hb hc hd
    show searchL ('r' :: (a ++ 'i' :: (b ++ 'p' :: (c ++ 'f' :: d)))) = some (a, b, c, d)
    simp [searchL, hm]

/-! ## Lemmas about the sorted-minimum selection -/

/-- The running minimum is one of the seed or list elements. -/
theorem minKeyAux_mem (ks : List MKey) : ∀ m : MKey, minKeyAux m ks ∈ m :: ks := by
  induction ks with
  | nil => intro m; simp [minKeyAux]
  | cons k ks ih =>
    intro m
    simp only [minKeyAux]
    have hsub : (if keyLt k m then k else m) :: ks ⊆ m :: k :: ks := by
      intro x hx
      rcases List.mem_cons.mp hx with h1 | h1
      · subst h1
        by_cases h : keyLt k m = true
        · simp [h]
        · simp [h]
      · simp [h1]
    exact hsub (ih _)

/-- The selected key of a group is the key of one of its rows, hence
well formed. -/
theorem minKeyList_wf (l : List MKey) (h : ∀ x ∈ l, IsWf x) : IsWf (minKeyList l) := by
  cases l with
  | nil => exact trivial
  | cons k ks => exact h _ (minKeyAux_mem ks k)

/-- Running minimum over copies of the seed returns the seed. -/
theorem minKeyAux_const (e : MKey) : ∀ ks : List MKey,
    (∀ x ∈ ks, x = e) → minKeyAux e ks = e := by
  intro ks
  induction ks with
  | nil => intro _; rfl
  | cons k ks ih =>
    intro h
    have hk : k = e := h k (List.mem_cons_self k ks)
    simp only [minKeyAux, hk]
    have he : (if keyLt e e then e else e) = e := by
      by_cases h2 : keyLt e e = true <;> simp [h2]
    rw [he]
    exact ih (fun x hx => h x (List.mem_cons_of_mem k hx))

/-- The minimum of a non-empty constant list is its repeated value. -/
theorem minKeyList_const (l : List MKey) (e : MKey) (hne : l ≠ [])
    (h : ∀ x ∈ l, x = e) : minKeyList l = e := by
  cases l with
  | nil => exact absurd rfl hne
  | cons k ks =>
    have hk : k = e := h k (List.mem_cons_self k ks)
    subst hk
    exact minKeyAux_const k ks (fun x hx => h x (List.mem_cons_of_mem k hx))

/-! ## Characterisations of the two filtering loops -/

/-- Folding a list of per-key filters is one filter by the
conjunction: the group-wise drops of the two filtering loops commute
and never look at the running working set. -/
theorem foldl_filter_eq {α β : Type} (P : α → β → Bool) (ks : List α) :
    ∀ l : List β,
      ks.foldl (fun cur k => cur.filter (fun r => P k r)) l
        = l.filter (fun r => ks.all (fun k => P k r)) := by
  induction ks with
  | nil => intro l; simp
  | cons k ks ih =>
    intro l
    rw [List.foldl_cons, ih, List.filter_filter]
    refine List.filter_congr ?_
    intro a _
    simp [List.all_cons, Bool.and_comm]

/-- The `remove_incomplete` loop, unrolled to a single filter over the
group keys. -/
theorem ri_foldl (complete : List Record → Bool) (df : List Record)
    (ks : List (String × String × String)) :
    ∀ l : List Record,
      ks.foldl
        (fun cur k =>
          if complete (groupSub df k) then cur
          else cur.filter (fun r => !(decide (gkey r = k)))) l
        = l.filter (fun r => ks.all (fun k =>
            complete (groupSub df k) || !(decide (gkey r = k)))) := by
  induction ks with
  | nil => intro l; simp
  | cons k ks ih =>
    intro l
    rw [List.foldl_cons]
    by_cases hc : complete (groupSub df k) = true
    · rw [if_pos hc, ih]
      refine List.filter_congr ?_
      intro a _
      simp [List.all_cons, hc]
    · rw [if_neg hc, ih, List.filter_filter]
      refine List.filter_congr ?_
      intro a _
      simp only [List.all_cons]
      rw [Bool.eq_false_iff.mpr hc]
      simp [Bool.and_comm]

/-- A row survives `remove_incomplete` exactly when the `complete`
predicate accepts its group's subtable of the original working set. -/
theorem remove_incomplete_char (complete : List Record → Bool) (df : List Record) :
    remove_incomplete complete df
      = df.filter (fun r => complete (groupSub df (gkey r))) := by
  unfold remove_incomplete
  rw [ri_foldl]
  refine List.filter_congr ?_
  intro r hr
  have hk : gkey r ∈ (df.map gkey).dedup :=
    List.mem_dedup.mpr (List.mem_map_of_mem gkey hr)
  by_cases hc : complete (groupSub df (gkey r)) = true
  · have hall : ∀ k ∈ (df.map gkey).dedup,
        (complete (groupSub df k) || !(decide (gkey r = k))) = true := by
      intro k hkm
      by_cases hek : gkey r = k
      · rw [← hek]
        simp [hc]
      · simp [hek]
    rw [List.all_eq_true.mpr hall, hc]
  · have hfail : ¬ ((df.map gkey).dedup.all (fun k =>
        complete (groupSub df k) || !(decide (gkey r = k))) = true) := by
      intro hall
      have h2 := List.all_eq_true.mp hall (gkey r) hk
      simp [hc] at h2
    rw [Bool.eq_false_iff.mpr hfail, Bool.eq_false_iff.mpr hc]

/-- The `remove_ensembles` loop, unrolled to a single filter over the
`source_id` keys. -/
theorem re_foldl (df : List Record) (ks : List String) :
    ∀ l : List Record,
      ks.foldl
        (fun cur sid =>
          cur.filter
            (fun r => !(decide (r.source_id = sid) && !(decide (r.member_id = msel df sid))))) l
        = l.filter (fun r => ks.all (fun sid =>
            !(decide (r.source_id = sid) && !(decide (r.member_id = msel df sid))))) := by
  induction ks with
  | nil => intro l; simp
  | cons k ks ih =>
    intro l
    rw [List.foldl_cons, ih, List.filter_filter]
    refine List.filter_congr ?_
    intro a _
    simp [List.all_cons, Bool.and_comm]

/-- A row survives `remove_ensembles` exactly when its `member_id` is
the one selected for its `source_id` on the original working set. -/
theorem remove_ensembles_char (df : List Record) :
    remove_ensembles df
      = df.filter (fun r => decide (r.member_id = msel df r.source_id)) := by
  unfold remove_ensembles
  rw [re_foldl]
  refine List.filter_congr ?_
  intro r hr
  have hk : r.source_id ∈ (df.map Record.source_id).dedup :=
    List.mem_dedup.mpr (List.mem_map_of_mem Record.source_id hr)
  by_cases hm : r.member_id = msel df r.source_id
  · have hall : ∀ sid ∈ (df.map Record.source_id).dedup,
        (!(decide (r.source_id = sid) && !(decide (r.member_id = msel df sid)))) = true := by
      intro sid hsid
      by_cases hes : r.source_id = sid
      · rw [← hes]
        simp [hm]
      · simp [hes]
    rw [List.all_eq_true.mpr hall]
    simp [hm]
  · have hfail : ¬ (((df.map Record.source_id).dedup).all (fun sid =>
        !(decide (r.source_id = sid) && !(decide (r.member_id = msel df sid)))) = true) := by
      intro hall
      have h2 := List.all_eq_true.mp hall r.source_id hk
      simp [hm] at h2
    rw [Bool.eq_false_iff.mpr hfail]
    simp [hm]

/-! ## Claim theorems -/

/-- C1: the claim says a failing backend's contribution is treated as
empty and `search()` never raises, with an empty working set when all
backends fail.  The code instead leaves the loop-local `df` variable
untouched on a caught exception: when a later backend fails, the
previous backend's table is appended a second time, and when the
first backend fails (in particular when all of them fail) the append
reads an unbound local and `search()` raises a `NameError`. -/
theorem search_backend_failure_bug :
    (∀ t : List Record,
        searchDfs [SearchOutcome.ok t, SearchOutcome.raiseCaught] Option.none
          = Except.ok [t, t]) ∧
      search [SearchOutcome.raiseCaught, SearchOutcome.raiseCaught, SearchOutcome.raiseCaught]
          = Except.error "NameError" :=
  ⟨fun _ => rfl, rfl⟩

/-- C2: for the `source_id` partition holding member identifiers
r2i1p1f1 and r10i1p1f1, the claim (and the function's own docstring)
selects r2i1p1f1, the minimum under component-wise integer ordering.
The code sorts the captured digit strings without converting them to
integers, so "10" sorts before "2" and the row kept is r10i1p1f1. -/
theorem remove_ensembles_lexicographic_bug :
    remove_ensembles [mkRec "CanESM5" "r2i1p1f1", mkRec "CanESM5" "r10i1p1f1"]
        = [mkRec "CanESM5" "r10i1p1f1"] ∧
      (mkRec "CanESM5" "r10i1p1f1").member_id = "r10i1p1f1" ∧
      (mkRec "CanESM5" "r2i1p1f1").member_id = "r2i1p1f1" := by
  refine ⟨by decide, rfl, rfl⟩

/-- C4: `remove_incomplete(predicate)` keeps exactly the rows whose
`(source_id, member_id, grid_label)` group — the subtable drawn from
the original, pre-filtering working set — satisfies the predicate.
The single-filter form makes the removal-order independence explicit:
every group is judged on the original working set. -/
theorem remove_incomplete_original_groups (complete : List Record → Bool)
    (df : List Record) :
    remove_incomplete complete df
        = df.filter (fun r => complete (groupSub df (gkey r))) ∧
      ∀ r : Record, r ∈ remove_incomplete complete df
        ↔ (r ∈ df ∧ complete (groupSub df (gkey r)) = true) := by
  refine ⟨remove_incomplete_char complete df, ?_⟩
  intro r
  rw [remove_incomplete_char complete df]
  simp [List.mem_filter]

/-- C9: both filtering operations only narrow the working set: each
result is a sublist of the input, so every surviving record was
present before, is unchanged, and nothing is added or reordered. -/
theorem filtering_only_narrows (complete : List Record → Bool) (df : List Record) :
    List.Sublist (remove_incomplete complete df) df ∧
      List.Sublist (remove_ensembles df) df := by
  constructor
  · rw [remove_incomplete_char]
    exact List.filter_sublist df
  · rw [remove_ensembles_char]
    exact List.filter_sublist df

/-- C8: `remove_ensembles` is idempotent.  After one pass every
surviving row of a `source_id` partition carries the selected
identifier; re-extracting that identifier reproduces its own key
(`wf_roundtrip`), so the second pass selects it again and drops
nothing. -/
theorem remove_ensembles_idempotent (df : List Record) :
    remove_ensembles (remove_ensembles df) = remove_ensembles df := by
  rw [remove_ensembles_char (remove_ensembles df)]
  apply List.filter_eq_self.mpr
  intro r hr
  have hr2 := hr
  rw [remove_ensembles_char df] at hr2
  obtain ⟨hrdf, hmem⟩ := List.mem_filter.mp hr2
  have hm : r.member_id = msel df r.source_id := of_decide_eq_true hmem
  suffices h : msel (remove_ensembles df) r.source_id = msel df r.source_id by
    simp [h, hm]
  have hgrp : ∀ x ∈ groupRows (remove_ensembles df) r.source_id,
      extractMember x.member_id = extractMember (msel df r.source_id) := by
    intro x hx
    obtain ⟨hx1, hx2⟩ := List.mem_filter.mp hx
    have hxs : x.source_id = r.source_id := of_decide_eq_true hx2
    rw [remove_ensembles_char df] at hx1
    obtain ⟨_, hx3⟩ := List.mem_filter.mp hx1
    have hxm : x.member_id = msel df x.source_id := of_decide_eq_true hx3
    rw [hxm, hxs]
  have hrg : r ∈ groupRows (remove_ensembles df) r.source_id := by
    refine List.mem_filter.mpr ⟨hr, ?_⟩
    simp
  have hneL : (groupRows (remove_ensembles df) r.source_id).map
      (fun x => extractMember x.member_id) ≠ [] := by
    intro hnil
    rw [List.map_eq_nil_iff] at hnil
    exact List.ne_nil_of_mem hrg hnil
  have hconstL : ∀ e ∈ (groupRows (remove_ensembles df) r.source_id).map
      (fun x => extractMember x.member_id), e = extractMember (msel df r.source_id) := by
    intro e he
    obtain ⟨x, hx, hxe⟩ := List.mem_map.mp he
    rw [← hxe]
    exact hgrp x hx
  have hmin : minKeyList ((groupRows (remove_ensembles df) r.source_id).map
      (fun x => extractMember x.member_id)) = extractMember (msel df r.source_id) :=
    minKeyList_const _ _ hneL hconstL
  have hwf : IsWf (minKeyList ((groupRows df r.source_id).map
      (fun x => extractMember x.member_id))) := by
    apply minKeyList_wf
    intro x hx
    obtain ⟨y, _, hy⟩ := List.mem_map.mp hx
    rw [← hy]
    exact extractMember_wf y.member_id
  have hround : extractMember (msel df r.source_id)
      = minKeyList ((groupRows df r.source_id).map (fun x => extractMember x.member_id)) :=
    wf_roundtrip _ hwf
  show formatMember (minKeyList ((groupRows (remove_ensembles df) r.source_id).map
      (fun x => extractMember x.member_id))) = msel df r.source_id
  rw [hmin, hround]
  rfl

/-- C3: the claim says the per-record resolution chain never raises —
errors from individual strategies being caught and treated as finding
nothing — and that a record for which every strategy yields zero
files maps to the failure marker string in the output.  The code
violates this twice.  First, every non-empty materialization raises
before the chain even runs: each iteration's response acquisition
reads `self.index_id`, an attribute no method ever assigns, so the
first record raises `AttributeError` and the marker-bearing mapping
is never returned (first conjunct: the faithful model of a one-record
materialization errors, with the marker-producing local and download
outcomes that the claim describes).  Second, within the chain itself
only `FileNotFoundError` from the local lookup is caught: an
exception of any other type from the local lookup, and any exception
from the download step (which has no handler), propagates out of the
chain (remaining conjuncts). -/
theorem resolution_chain_never_reached_bug :
    (to_dataset_dict (some [mkRec "CanESM5" "r1i1p1f1"]) true IgnoreArg.noArg "."
        (fun _ => StratOutcome.errFNF) (fun _ => StratOutcome.files [])).result
        = Except.error "AttributeError" ∧
      (resolveRecord (StratOutcome.files []) StratOutcome.errOther).result
        = Except.error () ∧
      (resolveRecord StratOutcome.errOther (StratOutcome.files ["tas.nc"])).result
        = Except.error () :=
  ⟨rfl, rfl, rfl⟩

/-- C5: materialization against an absent or empty working set fails
fast with the descriptive "No entries to retrieve." error, for both
`to_dataset_dict` and `to_datatree`, while the filtering operations
accept an empty working set without error. -/
theorem empty_catalog_fail_fast (minimal : Bool) (ig : IgnoreArg) (sep : String)
    (lo dn : Record → StratOutcome) (complete : List Record → Bool) :
    (to_dataset_dict Option.none minimal ig sep lo dn).result
        = Except.error "No entries to retrieve." ∧
      (to_dataset_dict (some []) minimal ig sep lo dn).result
        = Except.error "No entries to retrieve." ∧
      (to_datatree Option.none minimal ig lo dn).result
        = Except.error "No entries to retrieve." ∧
      (to_datatree (some []) minimal ig lo dn).result
        = Except.error "No entries to retrieve." ∧
      remove_incomplete complete [] = [] ∧
      remove_ensembles [] = [] :=
  ⟨rfl, rfl, rfl, rfl, rfl, rfl⟩

/-- C7: the fallback chain respects strict priority: a non-empty local
lookup means the download step is never invoked for that record, and a
local lookup yielding nothing (an empty list, or the caught
`FileNotFoundError`) means the download step is invoked exactly once. -/
theorem resolver_download_invocation (f : String) (fs : List String)
    (d : StratOutcome) :
    (resolveRecord (StratOutcome.files (f :: fs)) d).downloadCalls = 0 ∧
      (resolveRecord (StratOutcome.files []) d).downloadCalls = 1 ∧
      (resolveRecord StratOutcome.errFNF d).downloadCalls = 1 := by
  cases d <;> exact ⟨rfl, rfl, rfl⟩

/-- C10 counterexample: the claim says every `to_dataset_dict` call
receiving a list mutates it.  The empty-working-set check raises
before the `+=` line runs, so such a call returns with the caller's
list untouched. -/
theorem ignore_facets_unchanged_on_empty :
    (to_dataset_dict Option.none true (IgnoreArg.list ["experiment_id"]) "."
        (fun _ => StratOutcome.errFNF) (fun _ => StratOutcome.errFNF)).ignoreAfter
      = ["experiment_id"] :=
  rfl

/-- C10 amended: on any call whose working set is non-empty (so the
call reaches the `ignore_facets += [...]` line), a caller-passed list
is extended in place with version, data_node and globus_subject — for
`to_dataset_dict` and `to_datatree` alike — and is therefore not left
unchanged. -/
theorem ignore_facets_mutated_in_place (l : List String) (minimal : Bool)
    (sep : String) (lo dn : Record → StratOutcome) (r0 : Record) (rest : List Record) :
    (to_dataset_dict (some (r0 :: rest)) minimal (IgnoreArg.list l) sep lo dn).ignoreAfter
        = l ++ ["version", "data_node", "globus_subject"] ∧
      (to_datatree (some (r0 :: rest)) minimal (IgnoreArg.list l) lo dn).ignoreAfter
        = l ++ ["version", "data_node", "globus_subject"] ∧
      (to_dataset_dict (some (r0 :: rest)) minimal (IgnoreArg.list l) sep lo dn).ignoreAfter
        ≠ l := by
  refine ⟨rfl, rfl, ?_⟩
  intro h
  have h2 := congrArg List.length h
  simp [normalizeIgnore, alwaysIgnored, to_dataset_dict] at h2

/-- C6: a column is included in the generated key format exactly when
it is not in the caller's ignore list, not in the fixed always-ignored
set, and — in minimal-key mode — not uniform across all rows; in
particular, for two rows sharing `activity_id = "CMIP"` but differing
in `source_id`, the minimal key excludes `activity_id` and includes
`source_id`.  The hypothesis restricts the caller's ignore list to
actual column names: for any other name `df.drop(columns=...)` raises
a `KeyError` before the key format is computed. -/
theorem key_format_inclusion (ig : List String) (minimal : Bool) (r0 : Record)
    (rest : List Record) (c : String) (hig : ∀ x ∈ ig, x ∈ allColumns) :
    (c ∈ keyFormat (r0 :: rest) (ig ++ alwaysIgnored) minimal ↔
        (c ∈ allColumns ∧ c ∉ ig ∧ c ∉ alwaysIgnored ∧
          (minimal = true → ¬ ∀ r ∈ r0 :: rest, getCol r c = getCol r0 c))) ∧
      "activity_id" ∉ keyFormat [recCMIP1, recCMIP2] ([] ++ alwaysIgnored) true ∧
      "source_id" ∈ keyFormat [recCMIP1, recCMIP2] ([] ++ alwaysIgnored) true := by
  refine ⟨?_, by decide, by decide⟩
  cases minimal <;>
    simp [keyFormat, List.mem_filter, List.mem_append, not_or, List.all_eq_true,
      and_assoc]

/-- Witness for `key_format_inclusion`: the caller ignores
`member_id`, and the `member_id` column is indeed excluded. -/
theorem key_format_inclusion_witness :
    ("member_id" ∈ keyFormat [recCMIP1, recCMIP2] (["member_id"] ++ alwaysIgnored) true ↔
        ("member_id" ∈ allColumns ∧ "member_id" ∉ ["member_id"] ∧
          "member_id" ∉ alwaysIgnored ∧
          (true = true →
            ¬ ∀ r ∈ [recCMIP1, recCMIP2],
                getCol r "member_id" = getCol recCMIP1 "member_id"))) ∧
      "activity_id" ∉ keyFormat [recCMIP1, recCMIP2] ([] ++ alwaysIgnored) true ∧
      "source_id" ∈ keyFormat [recCMIP1, recCMIP2] ([] ++ alwaysIgnored) true :=
  key_format_inclusion ["member_id"] true recCMIP1 [recCMIP2] "member_id" (by decide)
